import Mathlib

set_option maxRecDepth 4000

/-!
Shallow embedding of the TalentScout hiring-assistant chatbot
(`config.py`, `utils.py`, `llm_client.py`, `conversation_handler.py`,
`app.py`) and verification of the frozen claims about it.

Python strings are modeled as Lean `String` (lists of characters); the
ASCII fragment of `str.lower`, `str.upper`, `str.title`, `str.strip` and
of the regular-expression character classes is modeled explicitly, which
covers every string constant of the program.  Machine floats appear only
as `str(float(...))` renderings of short decimal literals and are modeled
by their decimal rendering.  Network and file-system effects are modeled
by explicit oracles and records.
-/

/-! ## Python string primitives -/

/-- The whitespace characters stripped by Python `str.strip()` and matched
by the regex class `\s` (ASCII fragment). -/
def isPyWs (c : Char) : Bool :=
  c = ' ' || c = '\t' || c = '\n' || c = '\r' || c = '\x0b' || c = '\x0c'

/-- ASCII lower-casing of one character (Python `str.lower`, ASCII fragment). -/
def asciiLower (c : Char) : Char :=
  if 'A' ≤ c && c ≤ 'Z' then Char.ofNat (c.toNat + 32) else c

/-- ASCII upper-casing of one character (Python `str.upper`, ASCII fragment). -/
def asciiUpper (c : Char) : Char :=
  if 'a' ≤ c && c ≤ 'z' then Char.ofNat (c.toNat - 32) else c

def isAsciiAlpha (c : Char) : Bool :=
  ('a' ≤ c && c ≤ 'z') || ('A' ≤ c && c ≤ 'Z')

def isAsciiDigit (c : Char) : Bool :=
  '0' ≤ c && c ≤ '9'

def isAsciiAlnum (c : Char) : Bool :=
  isAsciiAlpha c || isAsciiDigit c

/-- Python `str.strip()`: drop leading and trailing whitespace. -/
def stripList (cs : List Char) : List Char :=
  ((cs.dropWhile isPyWs).reverse.dropWhile isPyWs).reverse

def pyLower (s : String) : String :=
  String.mk (s.toList.map asciiLower)

def pyStrip (s : String) : String :=
  String.mk (stripList s.toList)

/-- All ways of writing a list as `p ++ q`, in order of increasing `p`. -/
def allSplits {α : Type} : List α → List (List α × List α)
  | [] => [([], [])]
  | a :: l => ([], a :: l) :: (allSplits l).map (fun p => (a :: p.1, p.2))

/-- Python substring containment `needle in hay` (contiguous substring). -/
def strContains (hay needle : List Char) : Bool :=
  (allSplits hay).any (fun p => needle.isPrefixOf p.2)

/-- Python `str.split()` with no arguments: split on whitespace runs,
discarding empty pieces.  The accumulator holds the current word reversed. -/
def pyWordsAux : List Char → List Char → List (List Char)
  | [], acc => if acc.isEmpty then [] else [acc.reverse]
  | c :: cs, acc =>
    if isPyWs c then
      if acc.isEmpty then pyWordsAux cs [] else acc.reverse :: pyWordsAux cs []
    else pyWordsAux cs (c :: acc)

def pyWords (cs : List Char) : List (List Char) :=
  pyWordsAux cs []

/-- `re.split` on the single-character alternatives of a class: cut at every
separator character, keeping empty segments (as Python does). -/
def splitOnAux (sep : Char → Bool) : List Char → List Char → List (List Char)
  | [], acc => [acc.reverse]
  | c :: cs, acc =>
    if sep c then acc.reverse :: splitOnAux sep cs []
    else splitOnAux sep cs (c :: acc)

def splitOn' (sep : Char → Bool) (cs : List Char) : List (List Char) :=
  splitOnAux sep cs []

/-- `re.sub(r'<[^>]*>', '', ·)`: remove every `<...>` span.  A match
starts at a `<` and runs to the first following `>`; a `<` with no later
`>` cannot be matched and is kept literally (and then no later tag can
match either, since no `>` remains).  One left-to-right pass with an
optional accumulator holding the reversed characters seen since the
pending `<`. -/
def removeTagsGo : List Char → Option (List Char) → List Char
  | [], none => []
  | [], some acc => '<' :: acc.reverse
  | c :: cs, none =>
    if c = '<' then removeTagsGo cs (some [])
    else c :: removeTagsGo cs none
  | c :: cs, some acc =>
    if c = '>' then removeTagsGo cs none
    else removeTagsGo cs (some (c :: acc))

def removeTags (cs : List Char) : List Char :=
  removeTagsGo cs none

/-- Elements of a list as far back as `n` from the end: Python `l[-n:]`. -/
def lastN {α : Type} (n : Nat) (l : List α) : List α :=
  l.drop (l.length - n)

/-! ## `config.py` -/

/-- `config.ConversationPhase` (a closed set of string constants in the
source, modeled as an enumeration). -/
inductive Phase
  | greeting
  | info_gathering
  | tech_stack
  | technical_questions
  | conclusion
  | ended
deriving DecidableEq

/-- Position of a phase in the linear conversation order. -/
def phaseIdx : Phase → Nat
  | .greeting => 0
  | .info_gathering => 1
  | .tech_stack => 2
  | .technical_questions => 3
  | .conclusion => 4
  | .ended => 5

/-- `config.EXIT_KEYWORDS`. -/
def EXIT_KEYWORDS : List String :=
  ["bye", "goodbye", "exit", "quit", "end", "stop",
   "thank you", "thanks", "that\x27s all", "no more",
   "end conversation", "close", "terminate"]

/-- `config.FIELD_PROMPTS`. -/
def FIELD_PROMPTS : List (String × String) :=
  [("full_name", "What is your full name?"),
   ("email", "What is your email address?"),
   ("phone", "What is your phone number?"),
   ("years_of_experience", "How many years of professional experience do you have?"),
   ("desired_positions", "What position(s) are you interested in?"),
   ("current_location", "Where are you currently located?"),
   ("tech_stack", "Please tell me about your tech stack - including programming languages, frameworks, databases, and tools you\x27re proficient in.")]

/-! ## `utils.py`: validators -/

/-- Python-dict helpers: ordered association list where assignment to an
existing key overwrites in place and a new key is appended at the end. -/
def dictSet (d : List (String × String)) (k v : String) : List (String × String) :=
  if d.any (fun p => p.1 = k) then d.map (fun p => if p.1 = k then (k, v) else p)
  else d ++ [(k, v)]

def dictGet (d : List (String × String)) (k : String) : Option String :=
  (d.find? (fun p => p.1 = k)).map (fun p => p.2)

def dictGetD (d : List (String × String)) (k dflt : String) : String :=
  (dictGet d k).getD dflt

/-- Character class `[a-zA-Z0-9._%+-]` (local part of the email regex in
`utils.validate_email`). -/
def emailLocalChar (c : Char) : Bool :=
  isAsciiAlnum c || c = '.' || c = '_' || c = '%' || c = '+' || c = '-'

/-- Character class `[a-zA-Z0-9.-]` (domain part of the email regex in
`utils.validate_email`). -/
def emailDomainChar (c : Char) : Bool :=
  isAsciiAlnum c || c = '.' || c = '-'

/-- `\.[a-zA-Z]{2,}$`: a literal dot followed by at least two ASCII
letters, to the end. -/
def matchDotTld (r : List Char) : Bool :=
  match r with
  | c :: t => c = '.' && decide (2 ≤ t.length) && t.all isAsciiAlpha
  | [] => false

/-- `D+\.[a-zA-Z]{2,}$` for a domain character class `D`. -/
def matchDomainDot (D : Char → Bool) (r : List Char) : Bool :=
  (allSplits r).any fun qr => !qr.1.isEmpty && qr.1.all D && matchDotTld qr.2

/-- Full-anchored match of `^L+@D+\.[a-zA-Z]{2,}$` for character classes
`L` and `D`: the string splits as `local ++ "@" ++ domain ++ "." ++ tld`
with nonempty `local` over `L`, nonempty `domain` over `D`, and a final
label of at least two ASCII letters. -/
def matchEmailPattern (L D : Char → Bool) (cs : List Char) : Bool :=
  (allSplits cs).any fun pr =>
    !pr.1.isEmpty && pr.1.all L &&
    (match pr.2 with
     | c :: r2 => c = '@' && matchDomainDot D r2
     | [] => false)

/-- `utils.validate_email`: strip, then full-match
`^[a-zA-Z0-9._%+-]+@[a-zA-Z0-9.-]+\.[a-zA-Z]{2,}$`. -/
def validate_email (email : String) : Bool :=
  matchEmailPattern emailLocalChar emailDomainChar (stripList email.toList)

/-- `utils.validate_phone`: remove `\s - . ( )`, then full-match
`^\+?[0-9]{10,15}$`. -/
def validate_phone (phone : String) : Bool :=
  let cleaned := phone.toList.filter
    (fun c => !(isPyWs c || c = '-' || c = '.' || c = '(' || c = ')'))
  let digits := match cleaned with
    | '+' :: rest => rest
    | l => l
  digits.all isAsciiDigit && decide (10 ≤ digits.length) && decide (digits.length ≤ 15)

/-- Leftmost match of `\d+(?:\.\d+)?` in a character list: the first digit
run, extended by `.` plus a digit run when present.  Returns the integer
digits and the fraction digits. -/
def firstNumber : List Char → Option (List Char × List Char)
  | [] => none
  | c :: cs =>
    if isAsciiDigit c then
      let ds := (c :: cs).takeWhile isAsciiDigit
      let rest := (c :: cs).dropWhile isAsciiDigit
      match rest with
      | '.' :: r2 =>
        let fs := r2.takeWhile isAsciiDigit
        if fs.isEmpty then some (ds, []) else some (ds, fs)
      | _ => some (ds, [])
    else firstNumber cs

/-- Python `str(float(intPart.fracPart))` for short decimal literals:
leading zeros of the integer part and trailing zeros of the fraction are
dropped, and an empty fraction renders as `.0`. -/
def pyFloatRender (ip fp : List Char) : String :=
  let ip1 := ip.dropWhile (fun c => c = '0')
  let ip2 := if ip1.isEmpty then ['0'] else ip1
  let fp1 := (fp.reverse.dropWhile (fun c => c = '0')).reverse
  if fp1.isEmpty then String.mk (ip2 ++ ['.', '0']) else String.mk (ip2 ++ '.' :: fp1)

/-- The `text_to_num` table of `utils.validate_experience`, with values
pre-rendered through `str(float(n))` as the caller stores them. -/
def text_to_num : List (String × String) :=
  [("fresher", "0.0"), ("fresh", "0.0"), ("no experience", "0.0"),
   ("one", "1.0"), ("two", "2.0"), ("three", "3.0"), ("four", "4.0"), ("five", "5.0"),
   ("six", "6.0"), ("seven", "7.0"), ("eight", "8.0"), ("nine", "9.0"), ("ten", "10.0")]

/-- `utils.validate_experience` composed with the `str(...)` rendering the
caller (`conversation_handler.py` line 149) applies to its result: the
first decimal number in the text, else the spelled-out-number table, else
`none`. -/
def validate_experience (experience : String) : Option String :=
  match firstNumber experience.toList with
  | some (ip, fp) => some (pyFloatRender ip fp)
  | none =>
    (text_to_num.find? (fun p =>
      strContains (experience.toList.map asciiLower) p.1.toList)).map (fun p => p.2)

/-! ## `utils.py`: tech-stack parsing, exit intent, sanitation -/

/-- `known_technologies` from `utils.parse_tech_stack`. -/
def known_technologies : List String :=
  ["python", "java", "javascript", "typescript", "c++", "c#", "ruby", "go",
   "rust", "php", "swift", "kotlin", "scala", "r", "matlab", "perl",
   "react", "angular", "vue", "svelte", "next.js", "nuxt", "html", "css",
   "sass", "less", "tailwind", "bootstrap", "jquery", "redux",
   "django", "flask", "fastapi", "spring", "node.js", "express", "rails",
   "laravel", "asp.net", ".net", "graphql", "rest", "grpc",
   "mysql", "postgresql", "mongodb", "redis", "elasticsearch", "sqlite",
   "oracle", "sql server", "dynamodb", "cassandra", "neo4j", "firebase",
   "aws", "azure", "gcp", "docker", "kubernetes", "jenkins", "terraform",
   "ansible", "gitlab", "github actions", "circleci", "linux",
   "tensorflow", "pytorch", "keras", "scikit-learn", "pandas", "numpy",
   "opencv", "nltk", "spacy", "hugging face", "langchain",
   "react native", "flutter", "android", "ios", "xamarin",
   "git", "jira", "confluence", "figma", "postman", "swagger"]

/-- Python `str.title()` (ASCII fragment): a letter is upper-cased when the
previous character is not a letter, and lower-cased otherwise. -/
def pyTitleGo : Bool → List Char → List Char
  | _, [] => []
  | prevAlpha, c :: cs =>
    (if isAsciiAlpha c then (if prevAlpha then asciiLower c else asciiUpper c) else c)
      :: pyTitleGo (isAsciiAlpha c) cs

def pyTitle (s : String) : String :=
  String.mk (pyTitleGo false s.toList)

/-- `tech.title() if len(tech) > 3 else tech.upper()`. -/
def normalizeTech (t : String) : String :=
  if t.length > 3 then pyTitle t else String.mk (t.toList.map asciiUpper)

/-- Model of Python `list(set(xs))` for a list of pairwise-distinct
strings: CPython iterates a `set` of strings in a hash-dependent order
that the language does not specify, so this model fixes the
first-occurrence order.  Every theorem below that looks at the result of
`parse_tech_stack` uses only order-insensitive facts (length and
membership), which hold under any iteration order, except where a
divergence from the specified order is exactly the point being made. -/
def pySetList (l : List String) : List String :=
  l.foldl (fun acc x => if x ∈ acc then acc else acc ++ [x]) []

/-- `utils.parse_tech_stack`. -/
def parse_tech_stack (tech_stack_text : String) : List String :=
  let lower_text := tech_stack_text.toList.map asciiLower
  let identified1 := known_technologies.foldl
    (fun acc tech =>
      if strContains lower_text tech.toList then acc ++ [normalizeTech tech] else acc)
    []
  let custom_techs := splitOn' (fun c => c = ',' || c = ';' || c = '/' || c = '\n')
    tech_stack_text.toList
  let identified2 := custom_techs.foldl
    (fun acc t =>
      let t1 := stripList t
      if !t1.isEmpty && decide (t1.length > 1) &&
          !(acc.map pyLower).contains (pyLower (String.mk t1)) then
        acc ++ [String.mk t1]
      else acc)
    identified1
  (pySetList identified2).take 15

/-- `utils.check_exit_intent`: some exit keyword occurs as a substring of
the lower-cased, stripped message. -/
def check_exit_intent (message : String) : Bool :=
  EXIT_KEYWORDS.any (fun keyword =>
    strContains (stripList (message.toList.map asciiLower)) keyword.toList)

/-- `utils.sanitize_input`: collapse whitespace runs, remove `<...>` tag
spans, truncate to 2000 characters. -/
def sanitize_input (text : String) : String :=
  if text = "" then ""
  else
    let collapsed := List.intercalate [' '] (pyWords text.toList)
    String.mk ((removeTags collapsed).take 2000)

/-- Role-tagged message (`{"role": ..., "content": ...}` dictionaries). -/
structure Msg where
  role : String
  content : String
deriving DecidableEq

/-- `utils.format_candidate_summary` field labels. -/
def field_labels : List (String × String) :=
  [("full_name", "Full Name"),
   ("email", "Email Address"),
   ("phone", "Phone Number"),
   ("years_of_experience", "Years of Experience"),
   ("desired_positions", "Desired Position(s)"),
   ("current_location", "Current Location"),
   ("tech_stack", "Tech Stack")]

/-- `utils.format_candidate_summary`. -/
def format_candidate_summary (candidate_info : List (String × String)) : String :=
  let bar := String.mk (List.replicate 50 '=')
  String.intercalate "\n"
    ([bar, "CANDIDATE SUMMARY", bar] ++
     field_labels.map (fun p => p.2 ++ ": " ++ dictGetD candidate_info p.1 "Not provided") ++
     [bar])

/-- `utils.format_conversation_for_llm`. -/
def format_conversation_for_llm (messages : List Msg) : String :=
  String.intercalate "\n"
    (messages.map (fun m =>
      (if m.role = "user" then "Candidate" else "Assistant") ++ ": " ++ m.content))

/-! ## `llm_client.py`: the language-model gateway

The remote chat-completion call is the one effect of `generate_response`;
it is modeled by an oracle mapping the attempt number to `some reply`
(success) or `none` (an exception).  `time.sleep` is modeled by recording
the slept durations.  Construction-time credential probing is process
start-up I/O and is not modeled; its sole observable outcome is the
`demo_mode` flag carried by the state. -/

structure LLMState where
  demo_mode : Bool
  conversation_history : List Msg
deriving DecidableEq

/-- The four canned strings of `LLMClient._get_demo_response`. -/
def demoGreetingText : String :=
  "👋 Welcome to TalentScout! I\x27m your AI Hiring Assistant.\n\nI\x27m here to help with your initial screening for tech positions. This process will take about 5-10 minutes.\n\n**Note:** Running in DEMO MODE - Connect a valid API key for full AI capabilities.\n\nLet\x27s get started! **What is your full name?**"

def demoQuestionsText : String :=
  "Based on your tech stack, here are some technical questions:\n\n**Python:**\n1. Explain the difference between `list` and `tuple` in Python.\n2. What is a decorator and how would you use it?\n3. How does Python handle memory management?\n\nPlease share your thoughts on these questions!"

def demoConclusionText : String :=
  "🎉 Thank you for completing the screening process!\n\n**Next Steps:**\n- Our team will review your responses within 5-7 business days\n- If selected, you\x27ll receive an email for the next interview round\n- For questions, contact us at hr@talentscout.com\n\nWe appreciate your time and interest in TalentScout. Good luck! 🍀"

def demoGenericText : String :=
  "Thank you for your response! This is helpful information.\n\nWould you like to continue with the screening process?"

/-- `LLMClient._get_demo_response`: keyword dispatch over the lower-cased
prompt. -/
def demoResponse (prompt : String) : String :=
  let pl := prompt.toList.map asciiLower
  if strContains pl "greeting".toList || strContains pl "welcome".toList then
    demoGreetingText
  else if strContains pl "technical".toList || strContains pl "question".toList then
    demoQuestionsText
  else if strContains pl "conclusion".toList || strContains pl "closing".toList then
    demoConclusionText
  else demoGenericText

/-- The history-trimming step of `LLMClient.generate_response` (lines
98-100): when the buffer exceeds 21 entries, keep entry 0 plus the most
recent 20. -/
def trimHistory (h : List Msg) : List Msg :=
  if h.length > 21 then h.take 1 ++ lastN 20 h else h

/-- Result of one `generate_response` call: the replacement conversation
buffer, the returned text, the recorded `time.sleep` durations, and the
number of loop iterations (attempts) executed. -/
structure GenOut where
  history : List Msg
  text : String
  sleeps : List Nat
  attempts : Nat
deriving DecidableEq

/-- The retry loop of `LLMClient.generate_response` (lines 81-114).
`attempt` is the loop counter, `remaining` the iterations left of
`range(max_retries)`.  On an exception the just-appended user turn is
popped (guarded, as in the source, by the last entry having role
`user`), and when further iterations remain the loop sleeps
`(2 ** attempt) * 1` seconds; on the last iteration it returns the demo
response. -/
def genGo (maxRetries : Nat) (oracle : Nat → Option String) (full_prompt demo : String) :
    List Msg → Nat → Nat → GenOut
  | hist, _, 0 => ⟨hist, demo, [], 0⟩
  | hist, attempt, remaining + 1 =>
    let hist1 := hist ++ [⟨"user", full_prompt⟩]
    match oracle attempt with
    | some assistant_message =>
      ⟨trimHistory (hist1 ++ [⟨"assistant", assistant_message⟩]), assistant_message, [], 1⟩
    | none =>
      let hist2 := if (hist1.getLast?).any (fun m => m.role = "user")
        then hist1.dropLast else hist1
      if attempt < maxRetries - 1 then
        let wait_time := 2 ^ attempt * 1
        let out := genGo maxRetries oracle full_prompt demo hist2 (attempt + 1) remaining
        ⟨out.history, out.text, wait_time :: out.sleeps, out.attempts + 1⟩
      else ⟨hist2, demo, [], 1⟩

/-- `LLMClient.generate_response`.  `context` follows Python truthiness:
only a nonempty context string is prefixed. -/
def generate_response (st : LLMState) (prompt : String) (context : Option String)
    (oracle : Nat → Option String) : LLMState × GenOut :=
  if st.demo_mode then (st, ⟨st.conversation_history, demoResponse prompt, [], 0⟩)
  else
    let full_prompt := match context with
      | some c => if c = "" then prompt else "Context:\n" ++ c ++ "\n\nTask:\n" ++ prompt
      | none => prompt
    let out := genGo 3 oracle full_prompt (demoResponse prompt) st.conversation_history 0 3
    ({ st with conversation_history := out.history }, out)

/-! ## `conversation_handler.py`

The handler consults the gateway only for generated text, and no claim
about the handler depends on that text or on the gateway buffer, so at
this level the gateway is abstracted as arbitrary text-valued functions
of the same inputs the source passes (`LLMClient.generate_response`,
`generate_technical_questions`, `generate_conclusion`); the gateway
dynamics themselves are modeled above.  The unused dataclass field
`awaiting_validation` (never read nor written after construction) is
omitted. -/

structure LLMIface where
  generateResponse : String → String
  generateTechnicalQuestions : List String → Rat → String → String
  generateConclusion : String → String

/-- `ConversationState` (dataclass defaults included). -/
structure ConversationState where
  phase : Phase := Phase.greeting
  candidate_info : List (String × String) := []
  current_field_index : Nat := 0
  conversation_history : List Msg := []
  tech_stack_parsed : List String := []
  technical_questions_asked : Bool := false
  questions_generated : String := ""
deriving DecidableEq

/-- `ConversationHandler._add_to_history`. -/
def addHistory (st : ConversationState) (role content : String) : ConversationState :=
  { st with conversation_history := st.conversation_history ++ [⟨role, content⟩] }

structure PMResult where
  state : ConversationState
  reply : String
  ended : Bool
deriving DecidableEq

/-- Python `float(s)` on the decimal forms this program produces
(optionally signed digit strings with an optional fraction); other forms
(exponents, inf/nan) are not produced here and yield `none`, matching the
`except` path of the caller. -/
def pyFloat (s : String) : Option Rat :=
  let cs := stripList s.toList
  let sgn : Rat × List Char := match cs with
    | '+' :: r => (1, r)
    | '-' :: r => (-1, r)
    | r => (1, r)
  let ip := sgn.2.takeWhile isAsciiDigit
  let rest := sgn.2.dropWhile isAsciiDigit
  let ipVal : Nat := ip.foldl (fun n c => n * 10 + (c.toNat - '0'.toNat)) 0
  match rest with
  | [] => if ip.isEmpty then none else some (sgn.1 * ipVal)
  | '.' :: fr =>
    let fp := fr.takeWhile isAsciiDigit
    let rest2 := fr.dropWhile isAsciiDigit
    let fpVal : Nat := fp.foldl (fun n c => n * 10 + (c.toNat - '0'.toNat)) 0
    if rest2.isEmpty && !(ip.isEmpty && fp.isEmpty) then
      some (sgn.1 * (ipVal + (fpVal : Rat) / 10 ^ fp.length))
    else none
  | _ => none

/-- The ordered field list local to `_handle_info_gathering`. -/
def fields_to_collect : List String :=
  ["full_name", "email", "phone", "years_of_experience",
   "desired_positions", "current_location"]

/-- `ConversationHandler._generate_validation_response`. -/
def generate_validation_response (field invalid_value : String) : String :=
  if field = "email" then
    "I notice the email \x27" ++ invalid_value ++ "\x27 might have a small typo. Could you please provide a valid email address? For example: name@example.com"
  else if field = "phone" then
    "I\x27d like to make sure I have your correct phone number. Could you please provide it in a standard format? For example: +1234567890 or 123-456-7890"
  else "Could you please provide a valid " ++ field ++ "?"

/-- The prompt built by `ConversationHandler._generate_field_prompt`. -/
def field_prompt_text (field previous_response : String) : String :=
  let field_question := (dictGet FIELD_PROMPTS field).getD
    ("Could you please provide your " ++ field ++ "?")
  "The candidate just told us: \"" ++ previous_response ++ "\"\n        \nNow we need to ask for their " ++
    field.replace "_" " " ++
    ".\nGenerate a natural, conversational response that:\n1. Briefly acknowledges what they said\n2. Asks for: " ++
    field_question ++ "\n\nKeep it friendly and concise (1-2 sentences)."

/-- `ConversationHandler._generate_tech_stack_prompt`. -/
def generate_tech_stack_prompt (st : ConversationState) : String :=
  let name := dictGetD st.candidate_info "full_name" "there"
  "Thank you for sharing that information, " ++ name ++
    "! Now, let\x27s talk about your technical skills. Please tell me about your tech stack - including the programming languages, frameworks, databases, and tools you\x27re proficient in. The more detail you provide, the better I can assess your technical background."

/-- The re-prompt of `_handle_tech_stack` when no technology is found. -/
def tech_stack_reprompt_text : String :=
  "I\x27d like to understand your technical background better. Could you please specify the programming languages, frameworks, databases, or tools you work with? For example: Python, Django, PostgreSQL, Docker, etc."

/-- The evaluation prompt built in `_handle_technical_questions`. -/
def tech_eval_prompt_text (context message : String) : String :=
  "The candidate has provided responses to technical questions.\n        \nPrevious context:\n" ++
    context ++ "\n\nTheir latest response: " ++ message ++
    "\n\nEvaluate their response professionally:\n1. Acknowledge their answer briefly\n2. If they answered well, provide positive feedback\n3. If they want to discuss more or have questions, engage appropriately\n4. After sufficient technical discussion, ask if they have any questions about the role or company\n\nKeep the response concise and professional. Do not provide detailed answers or solutions."

/-- `conclusion_indicators` from `_handle_technical_questions`. -/
def conclusion_indicators : List String :=
  ["that\x27s all", "done", "finished", "no more", "nothing else",
   "that covers", "i think that\x27s it", "any questions about"]

/-- `ConversationHandler._handle_exit`: set phase `ended`, generate a
closing message from the candidate summary, append it to history. -/
def handle_exit (llm : LLMIface) (st : ConversationState) : ConversationState × String :=
  let st1 := { st with phase := Phase.ended }
  let summary := format_candidate_summary st1.candidate_info
  let conclusion := llm.generateConclusion summary
  (addHistory st1 "assistant" conclusion, conclusion)

/-- Shared tail of `_handle_info_gathering` (lines 159-173): transition to
`tech_stack` once all six fields are collected, else prompt for the next
field and advance the cursor. -/
def infoGatherCont (llm : LLMIface) (st : ConversationState) (message : String) : PMResult :=
  if st.current_field_index ≥ fields_to_collect.length then
    let st1 := { st with phase := Phase.tech_stack }
    let response := generate_tech_stack_prompt st1
    ⟨addHistory st1 "assistant" response, response, false⟩
  else
    let current_field := fields_to_collect.getD st.current_field_index ""
    let st1 := { st with current_field_index := st.current_field_index + 1 }
    let response := llm.generateResponse (field_prompt_text current_field message)
    ⟨addHistory st1 "assistant" response, response, false⟩

/-- `ConversationHandler._handle_info_gathering`.  In every reachable
state the cursor is at most 6, so the source's `fields_to_collect[i-1]`
is modeled by a defaulted lookup. -/
def handle_info_gathering (llm : LLMIface) (st : ConversationState) (message : String) :
    PMResult :=
  if st.current_field_index > 0 then
    let prev_field := fields_to_collect.getD (st.current_field_index - 1) ""
    if prev_field = "email" ∧ validate_email message = false then
      let response := generate_validation_response "email" message
      ⟨addHistory st "assistant" response, response, false⟩
    else if prev_field = "phone" ∧ validate_phone message = false then
      let response := generate_validation_response "phone" message
      ⟨addHistory st "assistant" response, response, false⟩
    else
      let info := match validate_experience message with
        | some years =>
          if prev_field = "years_of_experience" then
            dictSet st.candidate_info prev_field years
          else dictSet st.candidate_info prev_field message
        | none => dictSet st.candidate_info prev_field message
      infoGatherCont llm { st with candidate_info := info } message
  else
    let st1 := { st with
      candidate_info := dictSet st.candidate_info "full_name" message
      current_field_index := 1 }
    infoGatherCont llm st1 message

/-- `ConversationHandler._handle_tech_stack`.  Note that the raw message
and the parsed list are stored *before* the emptiness check, exactly as
in the source (lines 178-179). -/
def handle_tech_stack (llm : LLMIface) (st : ConversationState) (message : String) : PMResult :=
  let parsed := parse_tech_stack message
  let st1 := { st with
    tech_stack_parsed := parsed
    candidate_info := dictSet st.candidate_info "tech_stack" message }
  if parsed.isEmpty then
    let response := tech_stack_reprompt_text
    ⟨addHistory st1 "assistant" response, response, false⟩
  else
    let st2 := { st1 with phase := Phase.technical_questions }
    let experience := dictGetD st2.candidate_info "years_of_experience" "0"
    let exp_years := (pyFloat experience).getD 0
    let position := dictGetD st2.candidate_info "desired_positions" "Software Developer"
    let questions := llm.generateTechnicalQuestions parsed exp_years position
    let st3 := { st2 with questions_generated := questions, technical_questions_asked := true }
    let tech_list := String.intercalate ", " parsed
    let response := "Excellent! I can see you have experience with " ++ tech_list ++
      ". That\x27s a great combination of skills!\n\nNow, I\x27d like to ask you some technical questions to better understand your proficiency. Please take your time with each question.\n\n" ++
      questions ++
      "\n\nPlease share your thoughts on these questions. You can answer them in any order, or let me know if you\x27d like to discuss any particular topic in more detail."
    ⟨addHistory st3 "assistant" response, response, false⟩

/-- `ConversationHandler._handle_technical_questions`. -/
def handle_technical_questions (llm : LLMIface) (st : ConversationState) (message : String) :
    PMResult :=
  let context := format_conversation_for_llm (lastN 6 st.conversation_history)
  let response := llm.generateResponse (tech_eval_prompt_text context message)
  if conclusion_indicators.any (fun ind =>
      strContains (message.toList.map asciiLower) ind.toList) then
    let st1 := { st with phase := Phase.conclusion }
    let conclusion_response := llm.generateConclusion
      (format_candidate_summary st1.candidate_info)
    ⟨addHistory st1 "assistant" conclusion_response, conclusion_response, false⟩
  else ⟨addHistory st "assistant" response, response, false⟩

/-- `ConversationHandler._handle_conclusion`. -/
def handle_conclusion (llm : LLMIface) (st : ConversationState) (message : String) : PMResult :=
  if check_exit_intent message = true then
    let (st1, conclusion) := handle_exit llm st
    ⟨st1, conclusion, true⟩
  else
    let response := llm.generateResponse
      ("The candidate said: \x27" ++ message ++
       "\x27. Respond briefly and professionally, then remind them that their application is complete and they can type \x27bye\x27 to end.")
    ⟨addHistory st "assistant" response, response, false⟩

/-- `ConversationHandler._handle_fallback`; `generate_with_history`
(llm_client.py line 124) delegates to `generate_response(message)`,
ignoring the history argument. -/
def handle_fallback (llm : LLMIface) (st : ConversationState) (message : String) : PMResult :=
  let response := llm.generateResponse message
  ⟨addHistory st "assistant" response, response, false⟩

/-- `ConversationHandler.process_message`. -/
def process_message (llm : LLMIface) (st : ConversationState) (user_message : String) :
    PMResult :=
  let m := sanitize_input user_message
  if m = "" then
    ⟨st, "I didn\x27t quite catch that. Could you please try again?", false⟩
  else
    let st1 := addHistory st "user" m
    if check_exit_intent m = true then
      let (st2, conclusion) := handle_exit llm st1
      ⟨st2, conclusion, true⟩
    else
      match st1.phase with
      | .greeting => handle_info_gathering llm { st1 with phase := Phase.info_gathering } m
      | .info_gathering => handle_info_gathering llm st1 m
      | .tech_stack => handle_tech_stack llm st1 m
      | .technical_questions => handle_technical_questions llm st1 m
      | .conclusion => handle_conclusion llm st1 m
      | .ended => handle_fallback llm st1 m

/-! ## `app.py`: persistence on conversation end

`save_candidate_data` writes a JSON snapshot; the wall-clock id and
timestamp are external I/O, so the record is modeled by its data-bearing
fields.  `export_conversation` saves only when at least one candidate
field has been collected (`if info:`), else it shows a warning and writes
nothing. -/

structure SavedRecord where
  candidate_info : List (String × String)
  conversation_history : List Msg
  data_handling_notice : String
deriving DecidableEq

def save_candidate_data (info : List (String × String)) (history : List Msg) : SavedRecord :=
  ⟨info, history, "This data is collected for recruitment purposes only."⟩

structure AppState where
  handler : ConversationState
  messages : List Msg
  conversation_ended : Bool
  saved : Option SavedRecord
deriving DecidableEq

/-- `app.export_conversation`. -/
def export_conversation (app : AppState) : AppState :=
  if app.handler.candidate_info.isEmpty then app
  else { app with saved := some (save_candidate_data app.handler.candidate_info
                                  app.handler.conversation_history) }

/-- One user input handled by `app.render_chat_interface` (lines 342-362):
echo the user message, run `process_message`, append the reply, and on
`ended` mark the conversation finished and auto-save. -/
def render_chat_step (llm : LLMIface) (app : AppState) (prompt : String) : AppState :=
  if app.conversation_ended then app
  else
    let app1 := { app with messages := app.messages ++ [Msg.mk "user" prompt] }
    let r := process_message llm app1.handler prompt
    let app2 := { app1 with
      handler := r.state
      messages := app1.messages ++ [Msg.mk "assistant" r.reply] }
    if r.ended then export_conversation { app2 with conversation_ended := true } else app2

/-- A trivial gateway instance used to instantiate universally quantified
theorems at concrete inputs. -/
def constIface : LLMIface :=
  ⟨fun _ => "", fun _ _ _ => "", fun _ => ""⟩

/-- The session state reached by feeding a sequence of messages to
`process_message`, starting from a fresh session in `info_gathering`
(the phase `get_initial_greeting` leaves a new session in). -/
def sessionAfter (llm : LLMIface) (msgs : List String) : ConversationState :=
  msgs.foldl (fun st m => (process_message llm st m).state)
    { phase := Phase.info_gathering }

/-! ## Spec-side comparison definitions

The specification states, as a testable property, that every string
matching `^[\w.+-]+@[\w.-]+\.[A-Za-z]{2,}$` passes `validateEmail`.
These definitions follow the spec's words (with `\w` read as ASCII word
characters, as everywhere in the spec), to be compared with the
source-derived `validate_email` above. -/

/-- `\w`: ASCII word characters. -/
def specWordChar (c : Char) : Bool :=
  isAsciiAlnum c || c = '_'

/-- `[\w.+-]`: the local-part class of the spec regex. -/
def specLocalChar (c : Char) : Bool :=
  specWordChar c || c = '.' || c = '+' || c = '-'

/-- `[\w.-]`: the domain class of the spec regex. -/
def specDomainChar (c : Char) : Bool :=
  specWordChar c || c = '.' || c = '-'

/-- The spec regex `^[\w.+-]+@[\w.-]+\.[A-Za-z]{2,}$` as a whole-string
matcher. -/
def specEmailRegex (s : String) : Bool :=
  matchEmailPattern specLocalChar specDomainChar s.toList

/-- A string ends (after some prefix) in `.` followed by at least two
ASCII letters: used to phrase "has a final domain label of at least two
letters". -/
def hasFinalLabel (cs : List Char) : Bool :=
  (allSplits cs).any fun pr => matchDotTld pr.2

/-! ## Helper lemmas -/

theorem mem_allSplits {α : Type} :
    ∀ (cs p q : List α), (p, q) ∈ allSplits cs ↔ cs = p ++ q := by
  intro cs
  induction cs with
  | nil =>
    intro p q
    simp only [allSplits, List.mem_singleton, Prod.mk.injEq]
    constructor
    · rintro ⟨rfl, rfl⟩; rfl
    · intro h
      rcases List.append_eq_nil.mp h.symm with ⟨rfl, rfl⟩
      exact ⟨rfl, rfl⟩
  | cons a l ih =>
    intro p q
    simp only [allSplits, List.mem_cons, List.mem_map, Prod.mk.injEq]
    constructor
    · rintro (⟨rfl, rfl⟩ | ⟨r, hr, rfl, rfl⟩)
      · rfl
      · simp [(ih r.1 r.2).mp hr]
    · intro h
      cases p with
      | nil => left; exact ⟨rfl, by simpa using h.symm⟩
      | cons b p1 =>
        right
        rcases List.cons_eq_cons.mp h with ⟨rfl, hl⟩
        exact ⟨(p1, q), (ih p1 q).mpr hl, rfl, rfl⟩

theorem strContains_iff (hay nd : List Char) :
    strContains hay nd = true ↔ ∃ p q, hay = p ++ nd ++ q := by
  unfold strContains
  rw [List.any_eq_true]
  constructor
  · rintro ⟨⟨p, r⟩, hmem, hpre⟩
    rcases List.isPrefixOf_iff_prefix.mp hpre with ⟨q, rfl⟩
    exact ⟨p, q, by simpa [List.append_assoc] using (mem_allSplits hay p (nd ++ q)).mp hmem⟩
  · rintro ⟨p, q, rfl⟩
    refine ⟨(p, nd ++ q), (mem_allSplits _ p (nd ++ q)).mpr (by simp), ?_⟩
    exact List.isPrefixOf_iff_prefix.mpr ⟨q, rfl⟩

theorem matchDotTld_iff (r : List Char) :
    matchDotTld r = true ↔
      ∃ t, r = '.' :: t ∧ 2 ≤ t.length ∧ t.all isAsciiAlpha = true := by
  cases r with
  | nil => simp [matchDotTld]
  | cons c t =>
    simp only [matchDotTld, Bool.and_eq_true, decide_eq_true_eq]
    constructor
    · rintro ⟨⟨hc, hlen⟩, hall⟩
      exact ⟨t, by rw [hc], hlen, hall⟩
    · rintro ⟨t1, ht, h2, h3⟩
      rcases List.cons_eq_cons.mp ht with ⟨rfl, rfl⟩
      exact ⟨⟨rfl, h2⟩, h3⟩

theorem matchDomainDot_iff (D : Char → Bool) (r : List Char) :
    matchDomainDot D r = true ↔
      ∃ d t, r = d ++ '.' :: t ∧ d ≠ [] ∧ d.all D = true ∧
        2 ≤ t.length ∧ t.all isAsciiAlpha = true := by
  unfold matchDomainDot
  rw [List.any_eq_true]
  constructor
  · rintro ⟨⟨d, r2⟩, hmem, hcond⟩
    simp only [Bool.and_eq_true, Bool.not_eq_true', List.isEmpty_eq_false] at hcond
    rcases hcond with ⟨⟨hne, hall⟩, htld⟩
    rcases (matchDotTld_iff r2).mp htld with ⟨t, rfl, h2, h3⟩
    exact ⟨d, t, (mem_allSplits r d ('.' :: t)).mp hmem, by simpa using hne, hall, h2, h3⟩
  · rintro ⟨d, t, rfl, hne, hall, h2, h3⟩
    refine ⟨(d, '.' :: t), (mem_allSplits _ d ('.' :: t)).mpr rfl, ?_⟩
    simp only [Bool.and_eq_true, Bool.not_eq_true', List.isEmpty_eq_false]
    exact ⟨⟨by simpa using hne, hall⟩, (matchDotTld_iff _).mpr ⟨t, rfl, h2, h3⟩⟩

theorem matchEmailPattern_iff (L D : Char → Bool) (cs : List Char) :
    matchEmailPattern L D cs = true ↔
      ∃ l d t, cs = l ++ '@' :: (d ++ '.' :: t) ∧
        l ≠ [] ∧ l.all L = true ∧ d ≠ [] ∧ d.all D = true ∧
        2 ≤ t.length ∧ t.all isAsciiAlpha = true := by
  unfold matchEmailPattern
  rw [List.any_eq_true]
  constructor
  · rintro ⟨⟨l, r⟩, hmem, hcond⟩
    cases r with
    | nil => simp at hcond
    | cons c r2 =>
      simp only [Bool.and_eq_true, Bool.not_eq_true', List.isEmpty_eq_false,
        decide_eq_true_eq] at hcond
      rcases hcond with ⟨⟨hne, hall⟩, hc, hdom⟩
      rcases (matchDomainDot_iff D r2).mp hdom with ⟨d, t, rfl, hd, hda, h2, h3⟩
      refine ⟨l, d, t, ?_, by simpa using hne, hall, hd, hda, h2, h3⟩
      rw [(mem_allSplits cs l (c :: (d ++ '.' :: t))).mp hmem, hc]
  · rintro ⟨l, d, t, rfl, hne, hall, hd, hda, h2, h3⟩
    refine ⟨(l, '@' :: (d ++ '.' :: t)),
      (mem_allSplits _ l ('@' :: (d ++ '.' :: t))).mpr rfl, ?_⟩
    simp only [Bool.and_eq_true, Bool.not_eq_true', List.isEmpty_eq_false,
      decide_eq_true_eq]
    exact ⟨⟨by simpa using hne, hall⟩, trivial,
      (matchDomainDot_iff D _).mpr ⟨d, t, rfl, hd, hda, h2, h3⟩⟩

theorem dropWhile_eq_self_of_head (p : Char → Bool) (cs : List Char)
    (h : ∀ c, cs.head? = some c → p c = false) : cs.dropWhile p = cs := by
  cases cs with
  | nil => rfl
  | cons a l => simp [List.dropWhile_cons, h a rfl]

theorem stripList_eq_self (cs : List Char)
    (h1 : ∀ c, cs.head? = some c → isPyWs c = false)
    (h2 : ∀ c, cs.getLast? = some c → isPyWs c = false) : stripList cs = cs := by
  unfold stripList
  rw [dropWhile_eq_self_of_head _ _ h1]
  rw [dropWhile_eq_self_of_head _ _ (fun c hc => h2 c (by rwa [List.head?_reverse] at hc))]
  exact List.reverse_reverse cs

theorem stripList_sublist (cs : List Char) : List.Sublist (stripList cs) cs := by
  unfold stripList
  have h1 : List.Sublist (cs.dropWhile isPyWs) cs := List.dropWhile_sublist isPyWs
  have h2 : List.Sublist ((cs.dropWhile isPyWs).reverse.dropWhile isPyWs)
      (cs.dropWhile isPyWs).reverse := List.dropWhile_sublist isPyWs
  have h3 := h2.reverse
  rw [List.reverse_reverse] at h3
  exact h3.trans h1

/-! ## Claim C3 -/

/-- C3 counterexample: `parse_tech_stack("Python, Django, PostgreSQL")`
is not the three-element list `[Python, Django, PostgreSQL]`: the
substring scan also matches `go` inside `django` and `r` inside
`postgresql`, so the result has five entries, whatever order the set
iteration yields. -/
theorem c3_counterexample :
    (parse_tech_stack "Python, Django, PostgreSQL").length = 5 ∧
    "GO" ∈ parse_tech_stack "Python, Django, PostgreSQL" ∧
    "R" ∈ parse_tech_stack "Python, Django, PostgreSQL" := by
  refine ⟨rfl, ?_, ?_⟩ <;> decide

/-! ## Claim C5 -/

/-- C5 counterexample: `a@b_c.com` matches the spec regex
`^[\w.+-]+@[\w.-]+\.[A-Za-z]{2,}$` (the `\w` domain class admits `_`)
but `validate_email` rejects it (its domain class `[a-zA-Z0-9.-]` has no
underscore). -/
theorem c5_counterexample :
    specEmailRegex "a@b_c.com" = true ∧ validate_email "a@b_c.com" = false := by
  refine ⟨?_, ?_⟩ <;> decide

/-! ## Claim C2 -/

/-- C2 counterexample: in phase `technical_questions`, the message
`that's all` contains a closing phrase of `conclusion_indicators`, yet
`process_message` ends the session (phase `ended`, `ended = true`)
instead of transitioning to `conclusion` with `ended = false`, because
`that's all` is also an `EXIT_KEYWORDS` entry and the exit check runs
first. -/
theorem c2_counterexample :
    conclusion_indicators.any (fun ind =>
      strContains ("that\x27s all".toList.map asciiLower) ind.toList) = true ∧
    (process_message constIface { phase := Phase.technical_questions } "that\x27s all").ended
      = true ∧
    (process_message constIface { phase := Phase.technical_questions }
      "that\x27s all").state.phase = Phase.ended := by
  refine ⟨?_, ?_, ?_⟩ <;> decide

/-! ## Claim C8 -/

/-- C8 counterexample: in phase `tech_stack`, the message `x` parses to
zero technologies and the handler re-prompts with the phase unchanged,
but the raw message is nevertheless stored under `tech_stack` in
`candidate_info` (the store happens before the emptiness check), contrary
to the claim that nothing is stored in that branch. -/
theorem c8_counterexample :
    parse_tech_stack "x" = [] ∧
    (process_message constIface { phase := Phase.tech_stack } "x").state.phase
      = Phase.tech_stack ∧
    (process_message constIface { phase := Phase.tech_stack } "x").state.candidate_info
      = [("tech_stack", "x")] ∧
    (process_message constIface { phase := Phase.tech_stack } "x").reply
      = tech_stack_reprompt_text := by
  refine ⟨?_, ?_, ?_, ?_⟩ <;> decide

/-! ## Claim C9 -/

/-- C9 counterexample: `bye` sent on a fresh session (no field collected
yet) ends the session, but no record is persisted: `export_conversation`
skips saving when `candidate_info` is empty, contrary to the claim that a
record exists "including the empty case". -/
theorem c9_counterexample :
    (render_chat_step constIface
      { handler := { phase := Phase.info_gathering }, messages := [],
        conversation_ended := false, saved := none } "bye").saved = none ∧
    (render_chat_step constIface
      { handler := { phase := Phase.info_gathering }, messages := [],
        conversation_ended := false, saved := none } "bye").conversation_ended = true ∧
    (render_chat_step constIface
      { handler := { phase := Phase.info_gathering }, messages := [],
        conversation_ended := false, saved := none } "bye").handler.phase = Phase.ended := by
  refine ⟨?_, ?_, ?_⟩ <;> decide

/-! ## Claim C4 -/

/-- C4 counterexample: with every remote attempt failing, the recorded
backoff waits are exactly 1s and 2s; no 4s wait ever occurs (the loop
sleeps only while `attempt < max_retries - 1`), contrary to the claimed
waits of 1s, 2s and 4s. -/
theorem c4_counterexample :
    (generate_response ⟨false, []⟩ "hello" none (fun _ => none)).2.sleeps = [1, 2] ∧
    ¬ (4 ∈ (generate_response ⟨false, []⟩ "hello" none (fun _ => none)).2.sleeps) := by
  refine ⟨?_, ?_⟩ <;> decide

/-! ## Dispatch lemmas for `process_message` -/

theorem process_message_exit (llm : LLMIface) (st : ConversationState) (m : String)
    (h1 : sanitize_input m ≠ "") (h2 : check_exit_intent (sanitize_input m) = true) :
    process_message llm st m =
      ⟨(handle_exit llm (addHistory st "user" (sanitize_input m))).1,
       (handle_exit llm (addHistory st "user" (sanitize_input m))).2, true⟩ := by
  unfold process_message
  rw [if_neg h1, if_pos h2]

theorem process_message_not_exit (llm : LLMIface) (st : ConversationState) (m : String)
    (h1 : sanitize_input m ≠ "") (h2 : check_exit_intent (sanitize_input m) = false) :
    process_message llm st m =
      match st.phase with
      | Phase.greeting => handle_info_gathering llm
          { addHistory st "user" (sanitize_input m) with phase := Phase.info_gathering }
          (sanitize_input m)
      | Phase.info_gathering =>
          handle_info_gathering llm (addHistory st "user" (sanitize_input m)) (sanitize_input m)
      | Phase.tech_stack =>
          handle_tech_stack llm (addHistory st "user" (sanitize_input m)) (sanitize_input m)
      | Phase.technical_questions =>
          handle_technical_questions llm (addHistory st "user" (sanitize_input m))
            (sanitize_input m)
      | Phase.conclusion =>
          handle_conclusion llm (addHistory st "user" (sanitize_input m)) (sanitize_input m)
      | Phase.ended =>
          handle_fallback llm (addHistory st "user" (sanitize_input m)) (sanitize_input m) := by
  unfold process_message
  rw [if_neg h1, if_neg (by simp [h2])]
  rfl

theorem handle_exit_fst_phase (llm : LLMIface) (st : ConversationState) :
    (handle_exit llm st).1.phase = Phase.ended := by
  simp [handle_exit, addHistory]

theorem handle_exit_fst_info (llm : LLMIface) (st : ConversationState) :
    (handle_exit llm st).1.candidate_info = st.candidate_info := by
  simp [handle_exit, addHistory]

/-! ## Claim C10 -/

/-- C10: `check_exit_intent(message)` is true exactly when some
configured exit keyword occurs as a contiguous substring of the
lower-cased, stripped message — including mid-word occurrences: messages
containing `end` inside `attended` or `weekend`, or containing `thanks`,
count as exit intent; and any message whose sanitized form has exit
intent ends the session from any phase. -/
theorem c10_exit_intent_substring :
    (∀ m : String, check_exit_intent m = true ↔
      ∃ k ∈ EXIT_KEYWORDS, ∃ p q,
        stripList (m.toList.map asciiLower) = p ++ k.toList ++ q) ∧
    check_exit_intent "attended" = true ∧
    check_exit_intent "weekend" = true ∧
    check_exit_intent "thanks" = true ∧
    (∀ (llm : LLMIface) (st : ConversationState) (m : String),
      sanitize_input m ≠ "" → check_exit_intent (sanitize_input m) = true →
      (process_message llm st m).ended = true ∧
      (process_message llm st m).state.phase = Phase.ended) := by
  refine ⟨?_, by decide, by decide, by decide, ?_⟩
  · intro m
    unfold check_exit_intent
    rw [List.any_eq_true]
    constructor
    · rintro ⟨k, hk, hc⟩
      exact ⟨k, hk, (strContains_iff _ _).mp hc⟩
    · rintro ⟨k, hk, hc⟩
      exact ⟨k, hk, (strContains_iff _ _).mpr hc⟩
  · intro llm st m h1 h2
    rw [process_message_exit llm st m h1 h2]
    exact ⟨rfl, handle_exit_fst_phase llm _⟩

/-- C10 witness: the exit-intent part of the theorem applied to the
message `bye` in phase `tech_stack`. -/
theorem c10_witness :
    (process_message constIface { phase := Phase.tech_stack } "bye").ended = true ∧
    (process_message constIface { phase := Phase.tech_stack } "bye").state.phase
      = Phase.ended :=
  c10_exit_intent_substring.2.2.2.2 constIface { phase := Phase.tech_stack } "bye"
    (by decide) (by decide)

/-- C2 amended: in phase `technical_questions`, a message containing a
closing phrase transitions to `conclusion` with a generated conclusion
and `ended = false` — provided the message does not also trigger the
exit-intent check, which runs first; the closing phrases `that's all`
and `no more` are also exit keywords and end the session instead. -/
theorem c2_amended (llm : LLMIface) (st : ConversationState) (m : String)
    (hph : st.phase = Phase.technical_questions)
    (h1 : sanitize_input m ≠ "")
    (h2 : check_exit_intent (sanitize_input m) = false)
    (h3 : conclusion_indicators.any (fun ind =>
      strContains ((sanitize_input m).toList.map asciiLower) ind.toList) = true) :
    (process_message llm st m).state.phase = Phase.conclusion ∧
    (process_message llm st m).ended = false ∧
    (process_message llm st m).reply =
      llm.generateConclusion (format_candidate_summary st.candidate_info) := by
  rw [process_message_not_exit llm st m h1 h2, hph]
  have hm : (match Phase.technical_questions with
      | Phase.greeting => handle_info_gathering llm
          { addHistory st "user" (sanitize_input m) with phase := Phase.info_gathering }
          (sanitize_input m)
      | Phase.info_gathering =>
          handle_info_gathering llm (addHistory st "user" (sanitize_input m)) (sanitize_input m)
      | Phase.tech_stack =>
          handle_tech_stack llm (addHistory st "user" (sanitize_input m)) (sanitize_input m)
      | Phase.technical_questions =>
          handle_technical_questions llm (addHistory st "user" (sanitize_input m))
            (sanitize_input m)
      | Phase.conclusion =>
          handle_conclusion llm (addHistory st "user" (sanitize_input m)) (sanitize_input m)
      | Phase.ended =>
          handle_fallback llm (addHistory st "user" (sanitize_input m)) (sanitize_input m)) =
      handle_technical_questions llm (addHistory st "user" (sanitize_input m))
        (sanitize_input m) := rfl
  rw [hm]
  unfold handle_technical_questions
  rw [if_pos h3]
  exact ⟨by simp [addHistory], rfl, by simp [addHistory]⟩

/-- C2 witness: the amended theorem applied to the closing phrase `done`
(which is not an exit keyword) in phase `technical_questions`. -/
theorem c2_witness :
    (process_message constIface { phase := Phase.technical_questions } "done").state.phase
      = Phase.conclusion ∧
    (process_message constIface { phase := Phase.technical_questions } "done").ended
      = false ∧
    (process_message constIface { phase := Phase.technical_questions } "done").reply
      = constIface.generateConclusion (format_candidate_summary []) :=
  c2_amended constIface { phase := Phase.technical_questions } "done" rfl
    (by decide) (by decide) (by decide)

theorem pm_info_gathering (llm : LLMIface) (st : ConversationState) (m : String)
    (h1 : sanitize_input m ≠ "") (h2 : check_exit_intent (sanitize_input m) = false)
    (hph : st.phase = Phase.info_gathering) :
    process_message llm st m =
      handle_info_gathering llm (addHistory st "user" (sanitize_input m))
        (sanitize_input m) := by
  rw [process_message_not_exit llm st m h1 h2, hph]

theorem pm_tech_stack (llm : LLMIface) (st : ConversationState) (m : String)
    (h1 : sanitize_input m ≠ "") (h2 : check_exit_intent (sanitize_input m) = false)
    (hph : st.phase = Phase.tech_stack) :
    process_message llm st m =
      handle_tech_stack llm (addHistory st "user" (sanitize_input m)) (sanitize_input m) := by
  rw [process_message_not_exit llm st m h1 h2, hph]

/-! ## Claim C8 -/

/-- C8 amended: in the `tech_stack` phase the raw (sanitized) message is
always stored under `tech_stack` in `candidate_info` and the parsed list
is always stored in `tech_stack_parsed` — *before* the emptiness check;
when zero technologies are found the handler re-prompts with the phase
unchanged, otherwise it transitions to `technical_questions`. -/
theorem c8_amended (llm : LLMIface) (st : ConversationState) (m : String)
    (hph : st.phase = Phase.tech_stack)
    (h1 : sanitize_input m ≠ "")
    (h2 : check_exit_intent (sanitize_input m) = false) :
    (process_message llm st m).state.candidate_info =
      dictSet st.candidate_info "tech_stack" (sanitize_input m) ∧
    (process_message llm st m).state.tech_stack_parsed =
      parse_tech_stack (sanitize_input m) ∧
    (parse_tech_stack (sanitize_input m) = [] →
      (process_message llm st m).state.phase = Phase.tech_stack ∧
      (process_message llm st m).ended = false ∧
      (process_message llm st m).reply = tech_stack_reprompt_text) ∧
    (parse_tech_stack (sanitize_input m) ≠ [] →
      (process_message llm st m).state.phase = Phase.technical_questions ∧
      (process_message llm st m).ended = false) := by
  rw [pm_tech_stack llm st m h1 h2 hph]
  unfold handle_tech_stack
  by_cases hp : parse_tech_stack (sanitize_input m) = []
  · rw [if_pos (by simp [hp])]
    refine ⟨by simp [addHistory], by simp [addHistory, hp], ?_, ?_⟩
    · intro _
      exact ⟨by simp [addHistory, hph], rfl, rfl⟩
    · intro hne
      exact absurd hp hne
  · rw [if_neg (by simp [hp])]
    refine ⟨by simp [addHistory], by simp [addHistory], ?_, ?_⟩
    · intro h
      exact absurd h hp
    · intro _
      exact ⟨by simp [addHistory], rfl⟩

/-- C8 witness: the amended theorem applied to the zero-technology
message `x` in phase `tech_stack`. -/
theorem c8_witness :
    (process_message constIface { phase := Phase.tech_stack } "x").state.candidate_info
      = dictSet [] "tech_stack" "x" ∧
    (process_message constIface { phase := Phase.tech_stack } "x").state.tech_stack_parsed
      = parse_tech_stack "x" ∧
    ((process_message constIface { phase := Phase.tech_stack } "x").state.phase
      = Phase.tech_stack ∧
     (process_message constIface { phase := Phase.tech_stack } "x").ended = false ∧
     (process_message constIface { phase := Phase.tech_stack } "x").reply
      = tech_stack_reprompt_text) := by
  have h := c8_amended constIface { phase := Phase.tech_stack } "x" rfl (by decide) (by decide)
  exact ⟨h.1, h.2.1, h.2.2.1 (by decide)⟩

/-! ## Claim C9 -/

/-- C9 amended: a message with exit intent (such as `bye`) at any phase
transitions the session to `ended` with `ended = true`, and afterwards a
record holding every field collected so far is persisted — provided at
least one field was collected; with zero fields collected,
`export_conversation` skips saving and no record is written. -/
theorem c9_amended (llm : LLMIface) (app : AppState) (m : String)
    (h0 : app.conversation_ended = false)
    (h1 : sanitize_input m ≠ "")
    (h2 : check_exit_intent (sanitize_input m) = true) :
    (render_chat_step llm app m).handler.phase = Phase.ended ∧
    (render_chat_step llm app m).conversation_ended = true ∧
    (app.handler.candidate_info = [] →
      (render_chat_step llm app m).saved = app.saved) ∧
    (app.handler.candidate_info ≠ [] →
      (render_chat_step llm app m).saved =
        some (save_candidate_data app.handler.candidate_info
          ((render_chat_step llm app m).handler.conversation_history))) := by
  unfold render_chat_step
  rw [if_neg (by simp [h0])]
  simp only []
  rw [process_message_exit llm app.handler m h1 h2]
  simp only []
  rw [if_pos trivial]
  unfold export_conversation
  have hinfo : (handle_exit llm (addHistory app.handler "user" (sanitize_input m))).1.candidate_info
      = app.handler.candidate_info := by
    rw [handle_exit_fst_info]; rfl
  by_cases hi : app.handler.candidate_info = []
  · rw [if_pos (by simp [hinfo, hi])]
    refine ⟨?_, rfl, fun _ => rfl, fun hne => absurd hi hne⟩
    exact handle_exit_fst_phase llm _
  · rw [if_neg (by simp [hinfo, hi])]
    refine ⟨?_, rfl, fun h => absurd h hi, fun _ => ?_⟩
    · exact handle_exit_fst_phase llm _
    · simp [save_candidate_data, hinfo]

/-- C9 witness: the amended theorem applied to `bye` in a session that
has collected the full-name field. -/
theorem c9_witness :
    (render_chat_step constIface
      { handler := { phase := Phase.info_gathering,
                     candidate_info := [("full_name", "Alice")],
                     current_field_index := 2 },
        messages := [], conversation_ended := false, saved := none } "bye").handler.phase
      = Phase.ended ∧
    (render_chat_step constIface
      { handler := { phase := Phase.info_gathering,
                     candidate_info := [("full_name", "Alice")],
                     current_field_index := 2 },
        messages := [], conversation_ended := false, saved := none } "bye").conversation_ended
      = true ∧
    (render_chat_step constIface
      { handler := { phase := Phase.info_gathering,
                     candidate_info := [("full_name", "Alice")],
                     current_field_index := 2 },
        messages := [], conversation_ended := false, saved := none } "bye").saved
      = some (save_candidate_data [("full_name", "Alice")]
          ((render_chat_step constIface
            { handler := { phase := Phase.info_gathering,
                           candidate_info := [("full_name", "Alice")],
                           current_field_index := 2 },
              messages := [], conversation_ended := false, saved := none }
            "bye").handler.conversation_history)) := by
  have h := c9_amended constIface
    { handler := { phase := Phase.info_gathering,
                   candidate_info := [("full_name", "Alice")],
                   current_field_index := 2 },
      messages := [], conversation_ended := false, saved := none } "bye"
    rfl (by decide) (by decide)
  exact ⟨h.1, h.2.1, h.2.2.2 (by decide)⟩

/-- C3 amended: `parse_tech_stack` always returns at most 15 entries;
for `"Python, Django, PostgreSQL"` the entries are exactly
`{Python, GO, R, Django, Postgresql}` — the case-insensitive substring
scan also matches `go` inside `django` and `r` inside `postgresql`, known
matches are title-cased (upper-cased at length at most 3), and the result
order is the iteration order of a Python `set`, not discovery order. -/
theorem c3_amended :
    (∀ s : String, (parse_tech_stack s).length ≤ 15) ∧
    (∀ x : String, x ∈ parse_tech_stack "Python, Django, PostgreSQL" ↔
      x ∈ (["Python", "GO", "R", "Django", "Postgresql"] : List String)) := by
  constructor
  · intro s
    unfold parse_tech_stack
    simp only []
    rw [List.length_take]
    exact min_le_left _ _
  · intro x
    have h : parse_tech_stack "Python, Django, PostgreSQL"
        = ["Python", "GO", "R", "Django", "Postgresql"] := by rfl
    rw [h]

/-! ## Claim C7 -/

theorem infoGatherCont_phase (llm : LLMIface) (st : ConversationState) (m : String) :
    (infoGatherCont llm st m).state.phase = st.phase ∨
    (infoGatherCont llm st m).state.phase = Phase.tech_stack := by
  unfold infoGatherCont addHistory
  split
  · right; simp
  · left; simp

theorem handle_info_gathering_phase (llm : LLMIface) (st : ConversationState) (m : String) :
    (handle_info_gathering llm st m).state.phase = st.phase ∨
    (handle_info_gathering llm st m).state.phase = Phase.tech_stack := by
  unfold handle_info_gathering
  split
  · split <;>
      (simp only []
       split
       · left; simp [addHistory]
       · split
         · left; simp [addHistory]
         · exact (infoGatherCont_phase llm _ m).imp (fun h => h.trans rfl) id)
  · simp only []
    exact (infoGatherCont_phase llm _ m).imp (fun h => h.trans rfl) id

theorem handle_tech_stack_phase (llm : LLMIface) (st : ConversationState) (m : String) :
    (handle_tech_stack llm st m).state.phase = st.phase ∨
    (handle_tech_stack llm st m).state.phase = Phase.technical_questions := by
  unfold handle_tech_stack addHistory
  simp only []
  split
  all_goals simp

theorem handle_technical_questions_phase (llm : LLMIface) (st : ConversationState)
    (m : String) :
    (handle_technical_questions llm st m).state.phase = st.phase ∨
    (handle_technical_questions llm st m).state.phase = Phase.conclusion := by
  unfold handle_technical_questions addHistory
  simp only []
  split
  all_goals simp

theorem handle_conclusion_phase (llm : LLMIface) (st : ConversationState) (m : String) :
    (handle_conclusion llm st m).state.phase = st.phase ∨
    (handle_conclusion llm st m).state.phase = Phase.ended := by
  unfold handle_conclusion handle_exit addHistory
  simp only []
  split
  all_goals simp

theorem handle_fallback_phase (llm : LLMIface) (st : ConversationState) (m : String) :
    (handle_fallback llm st m).state.phase = st.phase := by
  simp [handle_fallback, addHistory]

/-- C7: over any `process_message` call the phase only moves forward in
the order greeting < info_gathering < tech_stack < technical_questions <
conclusion < ended; the exit-intent jump to `ended` is also forward, so
monotonicity holds for every state and every message. -/
theorem c7_phase_monotonic (llm : LLMIface) (st : ConversationState) (m : String) :
    phaseIdx st.phase ≤ phaseIdx (process_message llm st m).state.phase := by
  by_cases h1 : sanitize_input m = ""
  · unfold process_message
    rw [if_pos h1]
  · by_cases h2 : check_exit_intent (sanitize_input m) = true
    · rw [process_message_exit llm st m h1 h2]
      have hp : (⟨(handle_exit llm (addHistory st "user" (sanitize_input m))).1,
          (handle_exit llm (addHistory st "user" (sanitize_input m))).2,
          true⟩ : PMResult).state.phase = Phase.ended :=
        handle_exit_fst_phase llm _
      rw [hp]
      cases st.phase <;> decide
    · rw [process_message_not_exit llm st m h1 (by simpa using h2)]
      cases hph : st.phase
      · exact Nat.zero_le _
      · rcases handle_info_gathering_phase llm (addHistory st "user" (sanitize_input m))
          (sanitize_input m) with h | h <;> rw [h] <;> simp [addHistory, hph, phaseIdx]
      · rcases handle_tech_stack_phase llm (addHistory st "user" (sanitize_input m))
          (sanitize_input m) with h | h <;> rw [h] <;> simp [addHistory, hph, phaseIdx]
      · rcases handle_technical_questions_phase llm (addHistory st "user" (sanitize_input m))
          (sanitize_input m) with h | h <;> rw [h] <;> simp [addHistory, hph, phaseIdx]
      · rcases handle_conclusion_phase llm (addHistory st "user" (sanitize_input m))
          (sanitize_input m) with h | h <;> rw [h] <;> simp [addHistory, hph, phaseIdx]
      · rw [handle_fallback_phase llm (addHistory st "user" (sanitize_input m))
          (sanitize_input m)]
        simp [addHistory, hph, phaseIdx]

/-! ## Claim C4 -/

/-- Full evaluation of the three-iteration retry loop, by cases on the
oracle: each failure pops the just-appended user turn (restoring the
buffer), sleeps only while `attempt < max_retries - 1`, and the final
failure returns the demo response with the buffer restored. -/
theorem genGo_three (oracle : Nat → Option String) (fp demo : String) (hist : List Msg) :
    genGo 3 oracle fp demo hist 0 3 =
      match oracle 0 with
      | some r => ⟨trimHistory (hist ++ [⟨"user", fp⟩, ⟨"assistant", r⟩]), r, [], 1⟩
      | none =>
        match oracle 1 with
        | some r => ⟨trimHistory (hist ++ [⟨"user", fp⟩, ⟨"assistant", r⟩]), r, [1], 2⟩
        | none =>
          match oracle 2 with
          | some r => ⟨trimHistory (hist ++ [⟨"user", fp⟩, ⟨"assistant", r⟩]), r, [1, 2], 3⟩
          | none => ⟨hist, demo, [1, 2], 3⟩ := by
  cases h0 : oracle 0 with
  | some r =>
    simp [genGo, h0]
  | none =>
    cases h1 : oracle 1 with
    | some r =>
      simp [genGo, h0, h1, List.getLast?_concat, List.dropLast_concat]
    | none =>
      cases h2 : oracle 2 with
      | some r =>
        simp [genGo, h0, h1, h2, List.getLast?_concat, List.dropLast_concat]
      | none =>
        simp [genGo, h0, h1, h2, List.getLast?_concat, List.dropLast_concat]

/-- C4 amended: in non-demo mode `generate_response` makes at most 3
total attempts; on each failure the just-appended user turn is popped;
the backoff waits between attempts are 1s and then 2s (never 4s); after
exhausting retries it returns the canned offline response for the prompt
for this call only, with the conversation buffer restored and the
`demo_mode` flag still unset. -/
theorem c4_amended (st : LLMState) (prompt : String) (context : Option String)
    (oracle : Nat → Option String) (hdemo : st.demo_mode = false) :
    (∀ oracle2 : Nat → Option String,
      (generate_response st prompt context oracle2).2.attempts ≤ 3 ∧
      ((generate_response st prompt context oracle2).2.sleeps = [] ∨
       (generate_response st prompt context oracle2).2.sleeps = [1] ∨
       (generate_response st prompt context oracle2).2.sleeps = [1, 2])) ∧
    ((∀ i, i < 3 → oracle i = none) →
      (generate_response st prompt context oracle).2.text = demoResponse prompt ∧
      (generate_response st prompt context oracle).1.conversation_history
        = st.conversation_history ∧
      (generate_response st prompt context oracle).1.demo_mode = false ∧
      (generate_response st prompt context oracle).2.sleeps = [1, 2] ∧
      (generate_response st prompt context oracle).2.attempts = 3) := by
  constructor
  · intro oracle2
    unfold generate_response
    rw [if_neg (by simp [hdemo])]
    simp only []
    rw [genGo_three]
    cases h0 : oracle2 0 <;> cases h1 : oracle2 1 <;> cases h2 : oracle2 2 <;> simp
  · intro hfail
    have h0 := hfail 0 (by omega)
    have h1 := hfail 1 (by omega)
    have h2 := hfail 2 (by omega)
    unfold generate_response
    rw [if_neg (by simp [hdemo])]
    simp only []
    rw [genGo_three]
    simp [h0, h1, h2, hdemo]

/-- C4 witness: the all-failures part of the theorem at a concrete state
and oracle. -/
theorem c4_witness :
    (generate_response ⟨false, []⟩ "hello" none (fun _ => none)).2.text
      = demoResponse "hello" ∧
    (generate_response ⟨false, []⟩ "hello" none (fun _ => none)).1.conversation_history
      = [] ∧
    (generate_response ⟨false, []⟩ "hello" none (fun _ => none)).1.demo_mode = false ∧
    (generate_response ⟨false, []⟩ "hello" none (fun _ => none)).2.sleeps = [1, 2] ∧
    (generate_response ⟨false, []⟩ "hello" none (fun _ => none)).2.attempts = 3 :=
  (c4_amended ⟨false, []⟩ "hello" none (fun _ => none) rfl).2 (fun _ _ => rfl)

/-! ## Claim C6 -/

theorem trimHistory_facts (h : List Msg) (u a : Msg) (hne : h ≠ []) :
    (trimHistory (h ++ [u, a])).head? = h.head? ∧
    (trimHistory (h ++ [u, a])).length =
      if 21 < h.length + 2 then 21 else h.length + 2 := by
  obtain ⟨a0, t, rfl⟩ := List.exists_cons_of_ne_nil hne
  unfold trimHistory
  by_cases hl : 21 < (a0 :: t ++ [u, a]).length
  · rw [if_pos hl]
    constructor
    · simp only [List.cons_append, List.take_succ_cons, List.take_zero, List.nil_append,
        List.head?_cons]
    · rw [if_pos (show 21 < (a0 :: t).length + 2 by simp at hl ⊢; omega)]
      simp only [lastN, List.length_append, List.length_take, List.length_drop]
      simp at hl ⊢
      omega
  · rw [if_neg hl]
    constructor
    · simp
    · rw [if_neg (show ¬ 21 < (a0 :: t).length + 2 by simp at hl ⊢; omega)]
      simp

theorem generate_response_success_hist (st : LLMState) (p : String) (ctx : Option String)
    (oracle : Nat → Option String) (r : String)
    (hdemo : st.demo_mode = false) (h0 : oracle 0 = some r) :
    ∃ u : Msg, u.role = "user" ∧
      (generate_response st p ctx oracle).1.conversation_history =
        trimHistory (st.conversation_history ++ [u, ⟨"assistant", r⟩]) := by
  unfold generate_response
  rw [if_neg (by simp [hdemo])]
  simp only []
  rw [genGo_three, h0]
  exact ⟨_, rfl, rfl⟩

/-- C6: after a successful exchange in online mode, a buffer that would
exceed 21 entries is trimmed to its first entry plus the most recent 20,
and consequently after 25 successful exchanges starting from just the
system preamble the retained buffer has length exactly 21 with entry 0
still the original preamble. -/
theorem c6_buffer_window :
    (∀ (st : LLMState) (prompt : String) (context : Option String)
        (oracle : Nat → Option String) (r : String),
      st.demo_mode = false → oracle 0 = some r →
      st.conversation_history ≠ [] →
      21 < st.conversation_history.length + 2 →
      (generate_response st prompt context oracle).1.conversation_history.length = 21 ∧
      (generate_response st prompt context oracle).1.conversation_history.head?
        = st.conversation_history.head?) ∧
    (∀ sys : Msg,
      ((List.range 25).foldl (fun h i =>
        (generate_response ⟨false, h⟩ ("prompt" ++ toString i) none
          (fun _ => some ("reply" ++ toString i))).1.conversation_history)
        [sys]).length = 21 ∧
      ((List.range 25).foldl (fun h i =>
        (generate_response ⟨false, h⟩ ("prompt" ++ toString i) none
          (fun _ => some ("reply" ++ toString i))).1.conversation_history)
        [sys]).head? = some sys) := by
  constructor
  · intro st prompt context oracle r hdemo h0 hne hlen
    obtain ⟨u, _, hu⟩ := generate_response_success_hist st prompt context oracle r hdemo h0
    rw [hu]
    have hf := trimHistory_facts st.conversation_history u ⟨"assistant", r⟩ hne
    exact ⟨by rw [hf.2, if_pos hlen], hf.1⟩
  · intro sys
    have key : ∀ n : Nat,
        (((List.range n).foldl (fun h i =>
          (generate_response ⟨false, h⟩ ("prompt" ++ toString i) none
            (fun _ => some ("reply" ++ toString i))).1.conversation_history)
          [sys]).head? = some sys) ∧
        (((List.range n).foldl (fun h i =>
          (generate_response ⟨false, h⟩ ("prompt" ++ toString i) none
            (fun _ => some ("reply" ++ toString i))).1.conversation_history)
          [sys]).length = min (2 * n + 1) 21) := by
      intro n
      induction n with
      | zero => simp
      | succ k ih =>
        rw [List.range_succ, List.foldl_append, List.foldl_cons, List.foldl_nil]
        have hne : ((List.range k).foldl (fun h i =>
            (generate_response ⟨false, h⟩ ("prompt" ++ toString i) none
              (fun _ => some ("reply" ++ toString i))).1.conversation_history)
            [sys]) ≠ [] := by
          intro hcon
          have := ih.2
          rw [hcon] at this
          simp at this
          omega
        obtain ⟨u, _, hu⟩ := generate_response_success_hist
          ⟨false, ((List.range k).foldl (fun h i =>
            (generate_response ⟨false, h⟩ ("prompt" ++ toString i) none
              (fun _ => some ("reply" ++ toString i))).1.conversation_history)
            [sys])⟩
          ("prompt" ++ toString k) none (fun _ => some ("reply" ++ toString k))
          ("reply" ++ toString k) rfl rfl
        rw [hu]
        have hf := trimHistory_facts _ u ⟨"assistant", "reply" ++ toString k⟩ hne
        constructor
        · rw [hf.1]
          exact ih.1
        · rw [hf.2, ih.2]
          have h21 : (1 : Nat) ≤ 21 := by omega
          by_cases hcase : 21 < min (2 * k + 1) 21 + 2
          · rw [if_pos hcase]
            omega
          · rw [if_neg hcase]
            omega
    exact ⟨by simpa using (key 25).2, (key 25).1⟩

/-- C6 witness: the trim part of the theorem at a concrete 20-entry
buffer (22 entries after the exchange, trimmed to 21). -/
theorem c6_witness :
    (generate_response ⟨false, List.replicate 20 (Msg.mk "assistant" "x")⟩ "p" none
      (fun _ => some "r")).1.conversation_history.length = 21 ∧
    (generate_response ⟨false, List.replicate 20 (Msg.mk "assistant" "x")⟩ "p" none
      (fun _ => some "r")).1.conversation_history.head?
      = (List.replicate 20 (Msg.mk "assistant" "x")).head? :=
  c6_buffer_window.1 ⟨false, List.replicate 20 (Msg.mk "assistant" "x")⟩ "p" none
    (fun _ => some "r") "r" rfl rfl (by decide) (by decide)

/-! ## Claim C5 -/

theorem ws_not_specLocal (c : Char) (hw : isPyWs c = true) : specLocalChar c = false := by
  simp only [isPyWs, Bool.or_eq_true, decide_eq_true_eq] at hw
  rcases hw with ((((rfl | rfl) | rfl) | rfl) | rfl) | rfl <;> decide

theorem ws_not_alpha (c : Char) (hw : isPyWs c = true) : isAsciiAlpha c = false := by
  simp only [isPyWs, Bool.or_eq_true, decide_eq_true_eq] at hw
  rcases hw with ((((rfl | rfl) | rfl) | rfl) | rfl) | rfl <;> decide

theorem specLocal_wsFree (c : Char) (h : specLocalChar c = true) : isPyWs c = false := by
  cases hw : isPyWs c
  · rfl
  · rw [ws_not_specLocal c hw] at h
    exact absurd h (by simp)

theorem alpha_wsFree (c : Char) (h : isAsciiAlpha c = true) : isPyWs c = false := by
  cases hw : isPyWs c
  · rfl
  · rw [ws_not_alpha c hw] at h
    exact absurd h (by simp)

theorem specLocal_le_emailLocal (c : Char) (h : specLocalChar c = true) :
    emailLocalChar c = true := by
  simp only [specLocalChar, specWordChar, Bool.or_eq_true, decide_eq_true_eq] at h
  simp only [emailLocalChar, Bool.or_eq_true, decide_eq_true_eq]
  tauto

/-- C5 amended: every string matching
`^[\w.+-]+@[a-zA-Z0-9.-]+\.[A-Za-z]{2,}$` (the spec regex with the
underscore removed from the domain class, which the counterexample
forces) passes `validate_email`; and `validate_email` rejects every
string without an `@` and every string that, after stripping surrounding
whitespace, lacks a final domain label of at least two letters. -/
theorem c5_amended :
    (∀ s : String, matchEmailPattern specLocalChar emailDomainChar s.toList = true →
      validate_email s = true) ∧
    (∀ s : String, ¬ ('@' ∈ s.toList) → validate_email s = false) ∧
    (∀ s : String, hasFinalLabel (stripList s.toList) = false →
      validate_email s = false) := by
  refine ⟨?_, ?_, ?_⟩
  · intro s h
    rcases (matchEmailPattern_iff _ _ _).mp h with
      ⟨l, d, t, heq, hl, hLall, hd, hDall, h2, h3⟩
    unfold validate_email
    have hstrip : stripList s.toList = s.toList := by
      apply stripList_eq_self
      · intro c hc
        obtain ⟨c0, l1, rfl⟩ := List.exists_cons_of_ne_nil hl
        rw [heq] at hc
        simp only [List.cons_append, List.head?_cons, Option.some.injEq] at hc
        have hc0 : specLocalChar c0 = true := by
          have := List.all_eq_true.mp hLall c0 (by simp)
          simpa using this
        rw [← hc]
        exact specLocal_wsFree c0 hc0
      · intro c hc
        have ht : t ≠ [] := by
          intro hcon
          rw [hcon] at h2
          simp at h2
        rcases List.eq_nil_or_concat t with rfl | ⟨t0, a, rfl⟩
        · exact absurd rfl ht
        · rw [List.concat_eq_append] at heq h3
          have hre : l ++ '@' :: (d ++ '.' :: (t0 ++ [a]))
              = (l ++ '@' :: (d ++ '.' :: t0)) ++ [a] := by simp
          rw [heq, hre, List.getLast?_concat] at hc
          have hac : a = c := Option.some.inj hc
          rw [← hac]
          have ha : isAsciiAlpha a = true := by
            have := List.all_eq_true.mp h3 a (by simp)
            simpa using this
          exact alpha_wsFree a ha
    rw [hstrip, heq]
    apply (matchEmailPattern_iff _ _ _).mpr
    refine ⟨l, d, t, rfl, hl, ?_, hd, hDall, h2, h3⟩
    apply List.all_eq_true.mpr
    intro x hx
    have := List.all_eq_true.mp hLall x hx
    simpa using specLocal_le_emailLocal x (by simpa using this)
  · intro s hat
    cases hv : validate_email s
    · rfl
    · exfalso
      unfold validate_email at hv
      rcases (matchEmailPattern_iff _ _ _).mp hv with ⟨l, d, t, heq, _, _, _, _, _, _⟩
      apply hat
      have hmem : '@' ∈ stripList s.toList := by
        rw [heq]
        simp
      exact (stripList_sublist s.toList).subset hmem
  · intro s hfl
    cases hv : validate_email s
    · rfl
    · exfalso
      unfold validate_email at hv
      rcases (matchEmailPattern_iff _ _ _).mp hv with ⟨l, d, t, heq, _, _, _, _, h2, h3⟩
      have hlab : hasFinalLabel (stripList s.toList) = true := by
        unfold hasFinalLabel
        rw [List.any_eq_true]
        refine ⟨(l ++ '@' :: d, '.' :: t), ?_, ?_⟩
        · apply (mem_allSplits _ _ _).mpr
          rw [heq]
          simp
        · unfold matchDotTld
          simp [h2, h3]
      rw [hfl] at hlab
      exact Bool.false_ne_true hlab

/-- C5 witness: the positive direction of the amended theorem at
`a@b.com`, and the negative direction at a string without `@`. -/
theorem c5_witness :
    validate_email "a@b.com" = true ∧ validate_email "no-at-sign" = false :=
  ⟨c5_amended.1 "a@b.com" (by decide),
   c5_amended.2.1 "no-at-sign" (by decide)⟩

/-! ## Claim C1 -/

theorem infoGatherCont_lt (llm : LLMIface) (st : ConversationState) (m : String)
    (h : st.current_field_index < 6) :
    infoGatherCont llm st m =
      ⟨addHistory { st with current_field_index := st.current_field_index + 1 } "assistant"
        (llm.generateResponse
          (field_prompt_text (fields_to_collect.getD st.current_field_index "") m)),
       llm.generateResponse
         (field_prompt_text (fields_to_collect.getD st.current_field_index "") m),
       false⟩ := by
  unfold infoGatherCont
  rw [if_neg (by simp [fields_to_collect]; omega)]

theorem infoGatherCont_ge (llm : LLMIface) (st : ConversationState) (m : String)
    (h : st.current_field_index ≥ 6) :
    infoGatherCont llm st m =
      ⟨addHistory { st with phase := Phase.tech_stack } "assistant"
        (generate_tech_stack_prompt { st with phase := Phase.tech_stack }),
       generate_tech_stack_prompt { st with phase := Phase.tech_stack }, false⟩ := by
  unfold infoGatherCont
  rw [if_pos (by simp [fields_to_collect]; omega)]

theorem hig_at0 (llm : LLMIface) (st : ConversationState) (m : String)
    (h : st.current_field_index = 0) :
    handle_info_gathering llm st m =
      infoGatherCont llm
        { st with candidate_info := dictSet st.candidate_info "full_name" m,
                  current_field_index := 1 } m := by
  unfold handle_info_gathering
  rw [if_neg (by omega)]

theorem hig_email_invalid (llm : LLMIface) (st : ConversationState) (m : String)
    (hidx : st.current_field_index = 2) (hv : validate_email m = false) :
    handle_info_gathering llm st m =
      ⟨addHistory st "assistant" (generate_validation_response "email" m),
       generate_validation_response "email" m, false⟩ := by
  unfold handle_info_gathering
  rw [if_pos (by omega)]
  have hprev : fields_to_collect.getD (st.current_field_index - 1) "" = "email" := by
    rw [hidx]; rfl
  cases hve : validate_experience m
  · simp only []
    rw [hprev, if_pos ⟨rfl, hv⟩]
  · simp only []
    rw [hprev, if_pos ⟨rfl, hv⟩]

theorem hig_email_valid (llm : LLMIface) (st : ConversationState) (m : String)
    (hidx : st.current_field_index = 2) (hv : validate_email m = true) :
    handle_info_gathering llm st m =
      infoGatherCont llm
        { st with candidate_info := dictSet st.candidate_info "email" m } m := by
  unfold handle_info_gathering
  rw [if_pos (by omega)]
  have hprev : fields_to_collect.getD (st.current_field_index - 1) "" = "email" := by
    rw [hidx]; rfl
  cases hve : validate_experience m
  · simp only []
    rw [hprev, if_neg (by simp [hv]), if_neg (by simp)]
  · simp only []
    rw [hprev, if_neg (by simp [hv]), if_neg (by simp), if_neg (by simp)]

theorem hig_phone_valid (llm : LLMIface) (st : ConversationState) (m : String)
    (hidx : st.current_field_index = 3) (hv : validate_phone m = true) :
    handle_info_gathering llm st m =
      infoGatherCont llm
        { st with candidate_info := dictSet st.candidate_info "phone" m } m := by
  unfold handle_info_gathering
  rw [if_pos (by omega)]
  have hprev : fields_to_collect.getD (st.current_field_index - 1) "" = "phone" := by
    rw [hidx]; rfl
  cases hve : validate_experience m
  · simp only []
    rw [hprev, if_neg (by simp), if_neg (by simp [hv])]
  · simp only []
    rw [hprev, if_neg (by simp), if_neg (by simp [hv]), if_neg (by simp)]

theorem hig_at4 (llm : LLMIface) (st : ConversationState) (m : String)
    (hidx : st.current_field_index = 4) :
    ∃ v, handle_info_gathering llm st m =
      infoGatherCont llm
        { st with candidate_info := dictSet st.candidate_info "years_of_experience" v } m := by
  unfold handle_info_gathering
  rw [if_pos (by omega)]
  have hprev : fields_to_collect.getD (st.current_field_index - 1) ""
      = "years_of_experience" := by
    rw [hidx]; rfl
  cases hve : validate_experience m
  · refine ⟨m, ?_⟩
    simp only []
    rw [hprev, if_neg (by simp), if_neg (by simp)]
  · next y =>
    refine ⟨y, ?_⟩
    simp only []
    rw [hprev, if_neg (by simp), if_neg (by simp), if_pos rfl]

theorem hig_at5 (llm : LLMIface) (st : ConversationState) (m : String)
    (hidx : st.current_field_index = 5) :
    handle_info_gathering llm st m =
      infoGatherCont llm
        { st with candidate_info := dictSet st.candidate_info "desired_positions" m } m := by
  unfold handle_info_gathering
  rw [if_pos (by omega)]
  have hprev : fields_to_collect.getD (st.current_field_index - 1) ""
      = "desired_positions" := by
    rw [hidx]; rfl
  cases hve : validate_experience m
  · simp only []
    rw [hprev, if_neg (by simp), if_neg (by simp)]
  · simp only []
    rw [hprev, if_neg (by simp), if_neg (by simp), if_neg (by simp)]

theorem hig_at6 (llm : LLMIface) (st : ConversationState) (m : String)
    (hidx : st.current_field_index = 6) :
    handle_info_gathering llm st m =
      infoGatherCont llm
        { st with candidate_info := dictSet st.candidate_info "current_location" m } m := by
  unfold handle_info_gathering
  rw [if_pos (by omega)]
  have hprev : fields_to_collect.getD (st.current_field_index - 1) ""
      = "current_location" := by
    rw [hidx]; rfl
  cases hve : validate_experience m
  · simp only []
    rw [hprev, if_neg (by simp), if_neg (by simp)]
  · simp only []
    rw [hprev, if_neg (by simp), if_neg (by simp), if_neg (by simp)]

/-- C1: starting from a fresh session in `info_gathering`, feeding six
field answers in order (valid email and phone among them) keeps the
phase at `info_gathering` through the first five answers and transitions
it to `tech_stack` exactly when the sixth answer (for
`current_location`) is accepted; feeding a string failing
`validate_email` at the email step returns the email validation-retry
reply with the phase, the `current_field_index`, and the stored fields
all unchanged. -/
theorem c1_info_gathering_roundtrip (llm : LLMIface) (m1 m2 m3 m4 m5 m6 bad : String)
    (h1 : sanitize_input m1 ≠ "") (h1x : check_exit_intent (sanitize_input m1) = false)
    (h2 : sanitize_input m2 ≠ "") (h2x : check_exit_intent (sanitize_input m2) = false)
    (h3 : sanitize_input m3 ≠ "") (h3x : check_exit_intent (sanitize_input m3) = false)
    (h4 : sanitize_input m4 ≠ "") (h4x : check_exit_intent (sanitize_input m4) = false)
    (h5 : sanitize_input m5 ≠ "") (h5x : check_exit_intent (sanitize_input m5) = false)
    (h6 : sanitize_input m6 ≠ "") (h6x : check_exit_intent (sanitize_input m6) = false)
    (hem : validate_email (sanitize_input m2) = true)
    (hphn : validate_phone (sanitize_input m3) = true)
    (hb : sanitize_input bad ≠ "") (hbx : check_exit_intent (sanitize_input bad) = false)
    (hbe : validate_email (sanitize_input bad) = false) :
    (sessionAfter llm [m1]).phase = Phase.info_gathering ∧
    (sessionAfter llm [m1, m2]).phase = Phase.info_gathering ∧
    (sessionAfter llm [m1, m2, m3]).phase = Phase.info_gathering ∧
    (sessionAfter llm [m1, m2, m3, m4]).phase = Phase.info_gathering ∧
    (sessionAfter llm [m1, m2, m3, m4, m5]).phase = Phase.info_gathering ∧
    (sessionAfter llm [m1, m2, m3, m4, m5, m6]).phase = Phase.tech_stack ∧
    (process_message llm (sessionAfter llm [m1]) bad).reply
      = generate_validation_response "email" (sanitize_input bad) ∧
    (process_message llm (sessionAfter llm [m1]) bad).ended = false ∧
    (process_message llm (sessionAfter llm [m1]) bad).state.phase
      = (sessionAfter llm [m1]).phase ∧
    (process_message llm (sessionAfter llm [m1]) bad).state.current_field_index
      = (sessionAfter llm [m1]).current_field_index ∧
    (process_message llm (sessionAfter llm [m1]) bad).state.candidate_info
      = (sessionAfter llm [m1]).candidate_info := by
  have s1eq : sessionAfter llm [m1] =
      (handle_info_gathering llm
        (addHistory { phase := Phase.info_gathering } "user" (sanitize_input m1))
        (sanitize_input m1)).state := by
    show (process_message llm { phase := Phase.info_gathering } m1).state = _
    rw [pm_info_gathering llm _ m1 h1 h1x rfl]
  have f1 : (sessionAfter llm [m1]).phase = Phase.info_gathering ∧
      (sessionAfter llm [m1]).current_field_index = 2 := by
    rw [s1eq, hig_at0 llm _ _ rfl, infoGatherCont_lt llm _ _ (by simp [addHistory])]
    exact ⟨by simp [addHistory], by simp [addHistory]⟩
  have s2eq : sessionAfter llm [m1, m2] =
      (handle_info_gathering llm
        (addHistory (sessionAfter llm [m1]) "user" (sanitize_input m2))
        (sanitize_input m2)).state := by
    show (process_message llm (sessionAfter llm [m1]) m2).state = _
    rw [pm_info_gathering llm _ m2 h2 h2x f1.1]
  have f2 : (sessionAfter llm [m1, m2]).phase = Phase.info_gathering ∧
      (sessionAfter llm [m1, m2]).current_field_index = 3 := by
    rw [s2eq, hig_email_valid llm _ _ (by simp [addHistory, f1.2]) hem,
      infoGatherCont_lt llm _ _ (by simp [addHistory, f1.2])]
    exact ⟨by simp [addHistory, f1.1], by simp [addHistory, f1.2]⟩
  have s3eq : sessionAfter llm [m1, m2, m3] =
      (handle_info_gathering llm
        (addHistory (sessionAfter llm [m1, m2]) "user" (sanitize_input m3))
        (sanitize_input m3)).state := by
    show (process_message llm (sessionAfter llm [m1, m2]) m3).state = _
    rw [pm_info_gathering llm _ m3 h3 h3x f2.1]
  have f3 : (sessionAfter llm [m1, m2, m3]).phase = Phase.info_gathering ∧
      (sessionAfter llm [m1, m2, m3]).current_field_index = 4 := by
    rw [s3eq, hig_phone_valid llm _ _ (by simp [addHistory, f2.2]) hphn,
      infoGatherCont_lt llm _ _ (by simp [addHistory, f2.2])]
    exact ⟨by simp [addHistory, f2.1], by simp [addHistory, f2.2]⟩
  have s4eq : sessionAfter llm [m1, m2, m3, m4] =
      (handle_info_gathering llm
        (addHistory (sessionAfter llm [m1, m2, m3]) "user" (sanitize_input m4))
        (sanitize_input m4)).state := by
    show (process_message llm (sessionAfter llm [m1, m2, m3]) m4).state = _
    rw [pm_info_gathering llm _ m4 h4 h4x f3.1]
  have f4 : (sessionAfter llm [m1, m2, m3, m4]).phase = Phase.info_gathering ∧
      (sessionAfter llm [m1, m2, m3, m4]).current_field_index = 5 := by
    obtain ⟨v, hv4⟩ := hig_at4 llm
      (addHistory (sessionAfter llm [m1, m2, m3]) "user" (sanitize_input m4))
      (sanitize_input m4) (by simp [addHistory, f3.2])
    rw [s4eq, hv4, infoGatherCont_lt llm _ _ (by simp [addHistory, f3.2])]
    exact ⟨by simp [addHistory, f3.1], by simp [addHistory, f3.2]⟩
  have s5eq : sessionAfter llm [m1, m2, m3, m4, m5] =
      (handle_info_gathering llm
        (addHistory (sessionAfter llm [m1, m2, m3, m4]) "user" (sanitize_input m5))
        (sanitize_input m5)).state := by
    show (process_message llm (sessionAfter llm [m1, m2, m3, m4]) m5).state = _
    rw [pm_info_gathering llm _ m5 h5 h5x f4.1]
  have f5 : (sessionAfter llm [m1, m2, m3, m4, m5]).phase = Phase.info_gathering ∧
      (sessionAfter llm [m1, m2, m3, m4, m5]).current_field_index = 6 := by
    rw [s5eq, hig_at5 llm _ _ (by simp [addHistory, f4.2]),
      infoGatherCont_lt llm _ _ (by simp [addHistory, f4.2])]
    exact ⟨by simp [addHistory, f4.1], by simp [addHistory, f4.2]⟩
  have s6eq : sessionAfter llm [m1, m2, m3, m4, m5, m6] =
      (handle_info_gathering llm
        (addHistory (sessionAfter llm [m1, m2, m3, m4, m5]) "user" (sanitize_input m6))
        (sanitize_input m6)).state := by
    show (process_message llm (sessionAfter llm [m1, m2, m3, m4, m5]) m6).state = _
    rw [pm_info_gathering llm _ m6 h6 h6x f5.1]
  have f6 : (sessionAfter llm [m1, m2, m3, m4, m5, m6]).phase = Phase.tech_stack := by
    rw [s6eq, hig_at6 llm _ _ (by simp [addHistory, f5.2]),
      infoGatherCont_ge llm _ _ (by simp [addHistory, f5.2])]
    simp [addHistory]
  have sbadeq : process_message llm (sessionAfter llm [m1]) bad =
      ⟨addHistory (addHistory (sessionAfter llm [m1]) "user" (sanitize_input bad))
        "assistant" (generate_validation_response "email" (sanitize_input bad)),
       generate_validation_response "email" (sanitize_input bad), false⟩ := by
    rw [pm_info_gathering llm _ bad hb hbx f1.1,
      hig_email_invalid llm _ _ (by simp [addHistory, f1.2]) hbe]
  refine ⟨f1.1, f2.1, f3.1, f4.1, f5.1, f6, ?_, ?_, ?_, ?_, ?_⟩
  · rw [sbadeq]
  · rw [sbadeq]
  · rw [sbadeq]; simp [addHistory]
  · rw [sbadeq]; simp [addHistory]
  · rw [sbadeq]; simp [addHistory]

/-- C1 witness: the round trip at concrete answers, with
`not-an-email` as the invalid email. -/
theorem c1_witness :
    (sessionAfter constIface ["Alice Smith", "alice@example.com", "123-456-7890",
      "5", "Developer", "Paris"]).phase = Phase.tech_stack ∧
    (process_message constIface (sessionAfter constIface ["Alice Smith"])
      "not-an-email").reply
      = generate_validation_response "email" "not-an-email" ∧
    (process_message constIface (sessionAfter constIface ["Alice Smith"])
      "not-an-email").state.current_field_index
      = (sessionAfter constIface ["Alice Smith"]).current_field_index := by
  have h := c1_info_gathering_roundtrip constIface "Alice Smith" "alice@example.com"
    "123-456-7890" "5" "Developer" "Paris" "not-an-email"
    (by decide) (by decide) (by decide) (by decide) (by decide) (by decide)
    (by decide) (by decide) (by decide) (by decide) (by decide) (by decide)
    (by decide) (by decide) (by decide) (by decide) (by decide)
  exact ⟨h.2.2.2.2.2.1, h.2.2.2.2.2.2.1, h.2.2.2.2.2.2.2.2.2.1⟩
